import Mathlib

/-!
Verification development for the IntelMesh threat-intelligence backend.

The Python sources under `backend/` are shallowly embedded as Lean
functions over `List Char` / `String`:

* `backend/extractors.py`   — entity extraction (`extract_all` and friends);
* `backend/store.py`        — in-memory store (`add_item`, `get_stats`,
                              `search_feeds`);
* `backend/threat_feeds.py` — feed adapters (`fetch_malwarebazaar`);
* `backend/query_parser.py` — query translator (`parse_query`,
                              `filter_items`).

The Python `re` module is embedded by a small executable backtracking
regular-expression engine (`RE`, `reMatch`); each regular expression
appearing in the sources is transcribed into an `RE` value below.  The
engine returns candidate matches in Python's backtracking priority order
(alternation prefers the left branch, quantifiers are greedy), so taking
the head of the candidate list mirrors `re.search` / `re.findall` /
`re.sub` on the patterns concerned.
-/

namespace IntelMesh

/-! ### Basic character and string helpers (ASCII fragment of Python's
`str.lower`, `str.strip`, `in`, `split`, `replace`). -/

/-- Python `\w` word character (ASCII fragment): letters, digits, underscore. -/
def isWordChar (c : Char) : Bool := c.isAlphanum || c == '_'

/-- Hexadecimal digit (as in the character class `[a-fA-F0-9]`). -/
def isHexChar (c : Char) : Bool :=
  c.isDigit || ('a' ≤ c && c ≤ 'f') || ('A' ≤ c && c ≤ 'F')

/-- ASCII lower-casing of a character list (Python `str.lower`). -/
def lowerChars (s : List Char) : List Char := s.map Char.toLower

/-- ASCII lower-casing of a string (Python `str.lower`). -/
def strLower (s : String) : String := ⟨lowerChars s.data⟩

/-- Does `needle` occur as a prefix of `hay`? -/
def prefixChars : List Char → List Char → Bool
  | [], _ => true
  | _ :: _, [] => false
  | n :: ns, h :: hs => n == h && prefixChars ns hs

/-- Does `needle` occur as a contiguous substring of `hay`?
(Python `needle in hay` on strings.) -/
def subChars (needle : List Char) : List Char → Bool
  | [] => prefixChars needle []
  | c :: cs => prefixChars needle (c :: cs) || subChars needle cs

/-- Python `needle in hay` for strings. -/
def strIn (needle hay : String) : Bool := subChars needle.data hay.data

/-- Python `s.split(sep)` for a single-character separator. -/
def splitOnChar (sep : Char) : List Char → List (List Char)
  | [] => [[]]
  | c :: cs =>
    let rest := splitOnChar sep cs
    if c == sep then [] :: rest
    else match rest with
      | [] => [[c]]
      | r :: rs => (c :: r) :: rs

/-- Python `str.strip()` / `str.strip(chars)` generalised over a
character predicate: remove matching characters from both ends. -/
def stripBy (p : Char → Bool) (s : List Char) : List Char :=
  ((s.dropWhile p).reverse.dropWhile p).reverse

/-- Python `str.strip()` (whitespace). -/
def stripWsChars (s : List Char) : List Char := stripBy (fun c => c.isWhitespace) s

/-- Python `str.strip('"')`. -/
def stripQuoteChars (s : List Char) : List Char := stripBy (fun c => c == '"') s

/-- Python `str.replace(old, new)` for all occurrences (leftmost first). -/
def replaceChars (old new : List Char) : List Char → List Char
  | [] => []
  | c :: cs =>
    if prefixChars old (c :: cs) && old ≠ [] then
      new ++ replaceChars old new (cs.drop (old.length - 1))
    else
      c :: replaceChars old new cs
  termination_by s => s.length
  decreasing_by
    · simp [List.length_drop]; omega
    · simp

/-- Parse a decimal digit string into a `Nat` (Python `int(...)` on the
all-digit octet strings produced by the IP regular expression). -/
def digitsToNat (s : List Char) : Nat :=
  s.foldl (fun acc c => acc * 10 + (c.toNat - '0'.toNat)) 0

/-! ### A small backtracking regular-expression engine

`RE` is the abstract syntax of the fragment of Python regular
expressions used by the sources: literal characters (case-sensitive or
not), character classes, concatenation, alternation, greedy `*`, and the
zero-width word-boundary assertion `\b`.  `reMatch` enumerates matches of
a pattern at the start of a string, in Python's backtracking order; the
`prev` argument carries the character immediately to the left of the
current position so `\b` can be decided. -/

inductive RE where
  | fail : RE
  | eps : RE
  | tok : (Char → Bool) → RE
  | seq : RE → RE → RE
  | alt : RE → RE → RE
  | star : RE → RE
  | bound : RE

/-- Is there a word boundary between `prev` (the character to the left,
`none` at the start of the string) and the first character of `s`? -/
def atBoundary (prev : Option Char) (s : List Char) : Bool :=
  let lw := match prev with | none => false | some c => isWordChar c
  let rw := match s with | [] => false | c :: _ => isWordChar c
  lw != rw

/-- Enumerate the ways pattern `re` can match a prefix of `s`, in
backtracking priority order.  Each result is the state after the match:
the new left-context character and the remaining suffix.  `fuel` bounds
the recursion depth; every use below supplies enough fuel for the
patterns and strings concerned. -/
def reMatch : Nat → RE → Option Char → List Char → List (Option Char × List Char)
  | 0, _, _, _ => []
  | _ + 1, .fail, _, _ => []
  | _ + 1, .eps, prev, s => [(prev, s)]
  | _ + 1, .tok p, _, s =>
    match s with
    | [] => []
    | c :: cs => if p c then [(some c, cs)] else []
  | n + 1, .seq a b, prev, s =>
    (reMatch n a prev s).flatMap (fun st => reMatch n b st.1 st.2)
  | n + 1, .alt a b, prev, s =>
    reMatch n a prev s ++ reMatch n b prev s
  | n + 1, .star a, prev, s =>
    -- greedy: prefer iterating once more; only continue on real progress
    ((reMatch n a prev s).filter (fun st => st.2.length < s.length)).flatMap
      (fun st => reMatch n (.star a) st.1 st.2) ++ [(prev, s)]
  | _ + 1, .bound, prev, s =>
    if atBoundary prev s then [(prev, s)] else []

/-- Fuel that is always sufficient for the patterns in this file on a
given subject string. -/
def reFuel (re : RE) (s : List Char) : Nat :=
  let rec size : RE → Nat
    | .fail => 1 | .eps => 1 | .tok _ => 1 | .bound => 1
    | .seq a b => size a + size b + 1
    | .alt a b => size a + size b + 1
    | .star a => size a + 1
  (size re + 2) * (s.length + 2) + 2

/-- First match of `re` at the current position, if any (Python picks the
first candidate in backtracking order). -/
def reFirst (fuel : Nat) (re : RE) (prev : Option Char) (s : List Char) :
    Option (Option Char × List Char) :=
  (reMatch fuel re prev s).head?

/-- Python `re.search(re, s) is not None`: does the pattern match at some
position of `s`? -/
def reSearchAux (fuel : Nat) (re : RE) : Option Char → List Char → Bool
  | prev, [] => (reFirst fuel re prev []).isSome
  | prev, c :: cs =>
    (reFirst fuel re prev (c :: cs)).isSome || reSearchAux fuel re (some c) cs

def reSearchBool (re : RE) (s : List Char) : Bool :=
  reSearchAux (reFuel re s) re none s

/-- The text consumed between subject `s` and its suffix `rest`. -/
def consumedChars (s rest : List Char) : List Char :=
  s.take (s.length - rest.length)

/-- Python `re.search` returning `group(0)` of the first (leftmost)
match. -/
def reSearchFirst (fuel : Nat) (re : RE) : Option Char → List Char → Option (List Char)
  | prev, [] =>
    match reFirst fuel re prev [] with
    | some _ => some []
    | none => none
  | prev, c :: cs =>
    match reFirst fuel re prev (c :: cs) with
    | some st => some (consumedChars (c :: cs) st.2)
    | none => reSearchFirst fuel re (some c) cs

def reSearchStr (re : RE) (s : List Char) : Option (List Char) :=
  reSearchFirst (reFuel re s) re none s

/-- Python `re.findall` (whole-match groups): leftmost, non-overlapping
matches, each the first candidate in backtracking order; a zero-width
match advances one character, as in Python. -/
def reFindAux (fuel : Nat) (re : RE) : Nat → Option Char → List Char → List (List Char)
  | 0, _, _ => []
  | _ + 1, _, [] =>
    []
  | steps + 1, prev, c :: cs =>
    match reFirst fuel re prev (c :: cs) with
    | some st =>
      let m := consumedChars (c :: cs) st.2
      if m.isEmpty then
        m :: reFindAux fuel re steps (some c) cs
      else
        m :: reFindAux fuel re steps st.1 st.2
    | none => reFindAux fuel re steps (some c) cs

def reFindall (re : RE) (s : List Char) : List (List Char) :=
  reFindAux (reFuel re s) re (s.length + 1) none s

/-- Python `re.sub(re, '', s)`: delete every leftmost non-overlapping
match. -/
def reSubAux (fuel : Nat) (re : RE) : Nat → Option Char → List Char → List Char
  | 0, _, s => s
  | _ + 1, prev, [] =>
    let _ := prev; []
  | steps + 1, prev, c :: cs =>
    match reFirst fuel re prev (c :: cs) with
    | some st =>
      let m := consumedChars (c :: cs) st.2
      if m.isEmpty then
        c :: reSubAux fuel re steps (some c) cs
      else
        reSubAux fuel re steps st.1 st.2
    | none => c :: reSubAux fuel re steps (some c) cs

def reSubEmpty (re : RE) (s : List Char) : List Char :=
  reSubAux (reFuel re s) re (s.length + 1) none s

/-! Convenience constructors mirroring regular-expression syntax. -/

/-- Case-insensitive literal character (patterns compiled with
`re.IGNORECASE`, or applied to already lower-cased text). -/
def rchar (c : Char) : RE := .tok (fun x => x.toLower == c.toLower)

/-- Case-sensitive literal character. -/
def rcharCS (c : Char) : RE := .tok (fun x => x == c)

/-- Case-insensitive literal string. -/
def rstr (s : String) : RE := s.data.foldr (fun c r => .seq (rchar c) r) .eps

def rseq (l : List RE) : RE := l.foldr .seq .eps

/-- Alternation over a list, preferring earlier entries (Python `a|b|c`). -/
def ralt (l : List RE) : RE := l.foldr .alt .fail

/-- Greedy `r?`. -/
def ropt (r : RE) : RE := .alt r .eps

/-- `r{n}`. -/
def rrep : Nat → RE → RE
  | 0, _ => .eps
  | n + 1, r => .seq r (rrep n r)

/-- Greedy `r{n,}`. -/
def ratleast (n : Nat) (r : RE) : RE := .seq (rrep n r) (.star r)

/-- Greedy `r{0,n}`. -/
def ratmost : Nat → RE → RE
  | 0, _ => .eps
  | n + 1, r => ropt (.seq r (ratmost n r))

/-- Greedy `r+`. -/
def rplus (r : RE) : RE := .seq r (.star r)

/-- `\d`. -/
def rdigit : RE := .tok Char.isDigit

/-- `\s*` uses this: Python `\s` (ASCII fragment). -/
def rspace : RE := .tok Char.isWhitespace

/-- Character range class such as `[0-5]`. -/
def rrange (lo hi : Char) : RE := .tok (fun c => lo ≤ c && c ≤ hi)

end IntelMesh

namespace IntelMesh

/-- ASCII upper-casing (Python `str.upper`). -/
def strUpper (s : String) : String := ⟨s.data.map Char.toUpper⟩

/-! ## `backend/query_parser.py` -/

/-- `ParsedQuery` dataclass. -/
structure ParsedQuery where
  query_type : Option String := none
  keywords : List String := []
  cve_id : Option String := none
  time_range : Option String := none
  source : Option String := none
  entity_type : Option String := none
  raw_query : String := ""
  deriving Repr, DecidableEq

/-- `(ours?)?` (shared tail of the 24-hour patterns). -/
def reHours : RE := ropt (rseq [rstr "our", ropt (rchar 's')])

/-- `TIME_PATTERNS` (dict in insertion order). -/
def TIME_PATTERNS : List (RE × String) :=
  [ (rseq [.bound,
      ralt [rstr "today",
            rseq [rstr "last", .star rspace, rstr "24", .star rspace, rchar 'h', reHours],
            rseq [rstr "past", .star rspace, rstr "24", .star rspace, rchar 'h', reHours]],
      .bound], "last_24h"),
    (rseq [.bound,
      ralt [rseq [rstr "last", .star rspace, ralt [rstr "7", rstr "seven"], .star rspace,
                  rstr "day", ropt (rchar 's')],
            rseq [rstr "past", .star rspace, ralt [rstr "7", rstr "seven"], .star rspace,
                  rstr "day", ropt (rchar 's')],
            rseq [rstr "this", .star rspace, rstr "week"]],
      .bound], "7d"),
    (rseq [.bound,
      ralt [rseq [rstr "last", .star rspace, ralt [rstr "30", rstr "thirty"], .star rspace,
                  rstr "day", ropt (rchar 's')],
            rseq [rstr "past", .star rspace, ralt [rstr "30", rstr "thirty"], .star rspace,
                  rstr "day", ropt (rchar 's')],
            rseq [rstr "this", .star rspace, rstr "month"]],
      .bound], "30d"),
    (rseq [.bound, rstr "last", .star rspace, rstr "week", .bound], "7d"),
    (rseq [.bound, rstr "last", .star rspace, rstr "month", .bound], "30d") ]

/-- `CVE_PATTERN = re.compile(r'CVE-\d{4}-\d{4,}', re.IGNORECASE)`
(shared verbatim by `query_parser.py` and `extractors.py`). -/
def CVE_RE : RE := rseq [rstr "CVE-", rrep 4 rdigit, rchar '-', ratleast 4 rdigit]

/-- `TYPE_INDICATORS` (dict in insertion order). -/
def TYPE_INDICATORS : List (String × List RE) :=
  [ ("cve",
      [rseq [.bound, rstr "cve", ropt (rchar 's'), .bound],
       rseq [.bound, rstr "vulnerabilit", ralt [rstr "y", rstr "ies"], .bound]]),
    ("ioc",
      [rseq [.bound, rstr "ioc", ropt (rchar 's'), .bound],
       rseq [.bound, rstr "indicator", ropt (rchar 's'), .bound],
       rseq [.bound, rstr "ip", ropt (rchar 's'), .bound],
       rseq [.bound, rstr "domain", ropt (rchar 's'), .bound],
       rseq [.bound, rstr "hash", ropt (rstr "es"), .bound],
       rseq [.bound, rstr "url", ropt (rchar 's'), .bound]]),
    ("threat",
      [rseq [.bound, rstr "threat", ropt (rchar 's'), .bound],
       rseq [.bound, rstr "malware", .bound],
       rseq [.bound, rstr "actor", ropt (rchar 's'), .bound],
       rseq [.bound, rstr "apt", ropt (rchar 's'), .bound],
       rseq [.bound, rstr "attack", ropt (rseq [rstr "er", ropt (rchar 's')]), .bound]]),
    ("item",
      [rseq [.bound, rstr "article", ropt (rchar 's'), .bound],
       rseq [.bound, rstr "report", ropt (rchar 's'), .bound],
       rseq [.bound, rstr "news", .bound],
       rseq [.bound, rstr "pdf", ropt (rchar 's'), .bound]]) ]

/-- `ENTITY_INDICATORS` (dict in insertion order). -/
def ENTITY_INDICATORS : List (String × List RE) :=
  [ ("ip",
      [rseq [.bound, rstr "ip", ropt (rchar 's'), .bound],
       rseq [.bound, rstr "ip", .star rspace, rstr "address", ropt (rstr "es"), .bound]]),
    ("domain", [rseq [.bound, rstr "domain", ropt (rchar 's'), .bound]]),
    ("hash",
      [rseq [.bound, rstr "hash", ropt (rstr "es"), .bound],
       rseq [.bound, rstr "md5", .bound],
       rseq [.bound, rstr "sha", rplus rdigit, .bound]]),
    ("url", [rseq [.bound, rstr "url", ropt (rchar 's'), .bound]]) ]

/-- `SOURCE_INDICATORS` (dict in insertion order). -/
def SOURCE_INDICATORS : List (String × List RE) :=
  [ ("bleepingcomputer",
      [rseq [.bound, rstr "bleeping", .star rspace, rstr "computer", .bound],
       rseq [.bound, rstr "bleeping", .bound]]),
    ("gbhackers",
      [rseq [.bound, rstr "gbhacker", ropt (rchar 's'), .bound],
       rseq [.bound, rstr "gb", .star rspace, rstr "hacker", ropt (rchar 's'), .bound]]),
    ("pdf",
      [rseq [.bound, rstr "pdf", ropt (rchar 's'), .bound],
       rseq [.bound, rstr "uploade", ropt (rchar 'd'), .bound],
       rseq [.bound, rstr "report", ropt (rchar 's'), .bound]]) ]

/-- `STOP_WORDS`. -/
def STOP_WORDS : List String :=
  [ "show", "find", "search", "list", "get", "display", "give", "me", "the",
    "all", "any", "from", "for", "with", "about", "related", "to", "in",
    "a", "an", "and", "or", "of", "are", "is", "was", "were", "been",
    "what", "which", "where", "when", "how", "can", "could", "would",
    "please", "thanks", "thank", "you", "i", "my", "we", "our" ]

/-- `re.findall(r'\b[a-zA-Z0-9_-]+\b', text)` tokenizer pattern. -/
def TOKEN_RE : RE :=
  rseq [.bound, rplus (.tok (fun c => c.isAlphanum || c == '_' || c == '-')), .bound]

/-- `extract_time_range`. -/
def extract_time_range (query : String) : Option String :=
  let ql := lowerChars query.data
  (TIME_PATTERNS.find? (fun p => reSearchBool p.1 ql)).map (·.2)

/-- `extract_cve_id`. -/
def extract_cve_id (query : String) : Option String :=
  (reSearchStr CVE_RE query.data).map (fun m => strUpper ⟨m⟩)

/-- `extract_query_type` (returns `'all'` when nothing matches). -/
def extract_query_type (query : String) : String :=
  let ql := lowerChars query.data
  match TYPE_INDICATORS.find? (fun p => p.2.any (fun re => reSearchBool re ql)) with
  | some p => p.1
  | none => "all"

/-- `extract_entity_type`. -/
def extract_entity_type (query : String) : Option String :=
  let ql := lowerChars query.data
  (ENTITY_INDICATORS.find? (fun p => p.2.any (fun re => reSearchBool re ql))).map (·.1)

/-- `extract_source`. -/
def extract_source (query : String) : Option String :=
  let ql := lowerChars query.data
  (SOURCE_INDICATORS.find? (fun p => p.2.any (fun re => reSearchBool re ql))).map (·.1)

/-- `extract_keywords`: strip every previously matched phrase
(CVE ids, time phrases, type indicators, source indicators — all with
`re.IGNORECASE`, which the patterns build in), tokenize, drop stop words
and one-character tokens. -/
def extract_keywords (query : String) : List String :=
  let text := reSubEmpty CVE_RE query.data
  let text := TIME_PATTERNS.foldl (fun t p => reSubEmpty p.1 t) text
  let text := TYPE_INDICATORS.foldl
    (fun t p => p.2.foldl (fun t' re => reSubEmpty re t') t) text
  let text := SOURCE_INDICATORS.foldl
    (fun t p => p.2.foldl (fun t' re => reSubEmpty re t') t) text
  let words := (reFindall TOKEN_RE text).map (fun w => (⟨w⟩ : String))
  words.filter (fun w => !STOP_WORDS.contains (strLower w) && w.length > 1)

/-- `parse_query`. -/
def parse_query (query : String) : ParsedQuery :=
  { raw_query := query
    time_range := extract_time_range query
    cve_id := extract_cve_id query
    query_type := some (extract_query_type query)
    entity_type := extract_entity_type query
    source := extract_source query
    keywords := extract_keywords query }

end IntelMesh

namespace IntelMesh

/-! ## `backend/extractors.py` -/

/-- `IP_PATTERN` octet: `25[0-5]|2[0-4][0-9]|[01]?[0-9][0-9]?`. -/
def reOctet : RE :=
  ralt [ rseq [rstr "25", rrange '0' '5'],
         rseq [rstr "2", rrange '0' '4', rdigit],
         rseq [ropt (rrange '0' '1'), rdigit, ropt rdigit] ]

/-- `IP_PATTERN`. -/
def IP_RE : RE := rseq [.bound, rrep 3 (rseq [reOctet, rcharCS '.']), reOctet, .bound]

/-- One label of `DOMAIN_PATTERN`:
`[a-zA-Z0-9](?:[a-zA-Z0-9-]{0,61}[a-zA-Z0-9])?\.` -/
def reDomainLabel : RE :=
  rseq [.tok Char.isAlphanum,
        ropt (rseq [ratmost 61 (.tok (fun c => c.isAlphanum || c == '-')),
                    .tok Char.isAlphanum]),
        rcharCS '.']

/-- `DOMAIN_PATTERN` (restricted TLD allow-list, `re.IGNORECASE`). -/
def DOMAIN_RE : RE :=
  rseq [.bound, rplus reDomainLabel,
        ralt [rstr "com", rstr "net", rstr "org", rstr "io", rstr "ru", rstr "cn",
              rstr "xyz", rstr "top", rstr "info", rstr "biz", rstr "cc", rstr "tk",
              rstr "ml", rstr "ga", rstr "cf", rstr "pw", rstr "ws", rstr "su",
              rstr "onion"],
        .bound]

/-- `URL_PATTERN = https?://[^\s<>"\')\]]+` (`re.IGNORECASE`). -/
def URL_RE : RE :=
  rseq [rstr "http", ropt (rchar 's'), rstr "://",
        rplus (.tok (fun c =>
          !(c.isWhitespace || c == '<' || c == '>' || c == '"' ||
            c == Char.ofNat 39 || c == ')' || c == ']')))]

/-! The hash patterns `\b[a-fA-F0-9]{32|40|64}\b` are embedded directly
as a bounded-run scanner: a match of `re.findall` on such a pattern is
exactly `n` hexadecimal characters whose neighbours (when they exist)
are non-word characters.  All characters of a match are word characters,
so two matches can never overlap, and `findall`'s left-to-right
skip-past-each-match scan visits every such bounded run. -/

/-- `\b` holds to the left of the scan position. -/
def leftBoundOk : Option Char → Bool
  | none => true
  | some c => !isWordChar c

/-- `\b` holds between a hex run and the remaining suffix. -/
def rightBoundOk : List Char → Bool
  | [] => true
  | c :: _ => !isWordChar c

/-- Does `\b[a-fA-F0-9]{n}\b` match at the current position? -/
def hexRunHere (n : Nat) (prev : Option Char) (t : List Char) : Bool :=
  leftBoundOk prev && (t.take n).length == n &&
    (t.take n).all isHexChar && rightBoundOk (t.drop n)

/-- Scan for the non-overlapping matches of `\b[a-fA-F0-9]{n}\b`,
left to right (`steps` is structural fuel ≥ the string length). -/
def hexFindAux (n : Nat) : Nat → Option Char → List Char → List (List Char)
  | 0, _, _ => []
  | _ + 1, _, [] => []
  | steps + 1, prev, c :: cs =>
    if 0 < n && hexRunHere n prev (c :: cs) then
      (c :: cs).take n ::
        hexFindAux n steps (some (((c :: cs).take n).getLastD c)) ((c :: cs).drop n)
    else
      hexFindAux n steps (some c) cs

/-- `re.findall(r'\b[a-fA-F0-9]{n}\b', t)`. -/
def hexFindall (n : Nat) (t : List Char) : List (List Char) :=
  hexFindAux n (t.length + 1) none t

/-- One entry of the `hashes` list: `{"type": ..., "value": ...}`. -/
structure HashRec where
  type : String
  value : String
  deriving Repr, DecidableEq

/-- One pass of the `extract_hashes` loop: append the lower-cased
matches of one pattern that are not yet in `seen`, threading the shared
`(result, seen)` state. -/
def addHashes (ty : String) : List (List Char) → List HashRec × List String →
    List HashRec × List String
  | [], st => st
  | m :: ms, (res, seen) =>
    let hv : String := ⟨lowerChars m⟩
    if seen.contains hv then addHashes ty ms (res, seen)
    else addHashes ty ms (res ++ [⟨ty, hv⟩], seen ++ [hv])

/-- `extract_hashes`: SHA256 first (longest), then SHA1, then MD5, with
one `seen` set threaded through all three passes. -/
def extract_hashes (text : String) : List HashRec :=
  (addHashes "md5" (hexFindall 32 text.data)
    (addHashes "sha1" (hexFindall 40 text.data)
      (addHashes "sha256" (hexFindall 64 text.data) ([], [])))).1

/-- Shared shape of the `seen`-set loops in `extract_cves`,
`extract_ips`, `extract_domains` and `extract_urls`: normalise each
match, then append it when it is new and passes the extractor's filter.
In each of those Python loops the `seen` set holds exactly the elements
of the result list (it is only ever grown together with an append), so
one accumulator stands for both. -/
def dedupCollect (norm : String → String) (keep : String → Bool) :
    List String → List String → List String
  | [], res => res
  | x :: xs, res =>
    let v := norm x
    if !res.contains v && keep v then dedupCollect norm keep xs (res ++ [v])
    else dedupCollect norm keep xs res

/-- `extract_cves`: find, upper-case, deduplicate preserving order. -/
def extract_cves (text : String) : List String :=
  dedupCollect strUpper (fun _ => true)
    ((reFindall CVE_RE text.data).map (fun m => (⟨m⟩ : String))) []

/-- The version-number filter of `extract_ips`:
`all(o < 10 for o in octets)`. -/
def allOctetsSmall (ip : String) : Bool :=
  ((splitOnChar '.' ip.data).map digitsToNat).all (fun o => o < 10)

/-- `extract_ips`: matched addresses, deduplicated, dropping those whose
four octets are all below 10. -/
def extract_ips (text : String) : List String :=
  dedupCollect id (fun ip => !allOctetsSmall ip)
    ((reFindall IP_RE text.data).map (fun m => (⟨m⟩ : String))) []

/-- `FALSE_POSITIVE_DOMAINS`. -/
def FALSE_POSITIVE_DOMAINS : List String :=
  [ "example.com", "microsoft.com", "google.com", "github.com",
    "twitter.com", "facebook.com", "linkedin.com", "youtube.com",
    "bleepingcomputer.com", "gbhackers.com", "virustotal.com" ]

/-- `extract_domains`: lower-case, deduplicate, drop the denylist. -/
def extract_domains (text : String) : List String :=
  dedupCollect strLower (fun d => !FALSE_POSITIVE_DOMAINS.contains d)
    ((reFindall DOMAIN_RE text.data).map (fun m => (⟨m⟩ : String))) []

/-- Python `url.rstrip('.,;:)')`. -/
def urlRstrip (u : String) : String :=
  ⟨(u.data.reverse.dropWhile
      (fun c => c == '.' || c == ',' || c == ';' || c == ':' || c == ')')).reverse⟩

/-- `extract_urls`: strip trailing punctuation, deduplicate verbatim. -/
def extract_urls (text : String) : List String :=
  dedupCollect urlRstrip (fun _ => true)
    ((reFindall URL_RE text.data).map (fun m => (⟨m⟩ : String))) []

/-- `THREAT_ACTORS`. -/
def THREAT_ACTORS : List String :=
  [ "APT28", "APT29", "APT38", "APT41", "Lazarus", "Lazarus Group",
    "Cozy Bear", "Fancy Bear", "Sandworm", "Turla", "Equation Group",
    "FIN7", "FIN8", "FIN11", "Carbanak", "Cobalt Group", "TA505",
    "Wizard Spider", "Evil Corp", "DarkSide", "REvil", "Conti",
    "LockBit", "BlackCat", "ALPHV", "Cl0p", "Clop", "Hive",
    "Kimsuky", "Mustang Panda", "Stone Panda", "Charming Kitten",
    "Volt Typhoon", "Salt Typhoon", "Scattered Spider", "LAPSUS$",
    "NoName057", "Killnet", "Anonymous Sudan", "UNC2452", "UNC3886",
    "Midnight Blizzard", "Forest Blizzard", "Star Blizzard",
    "Velvet Ant", "Earth Lusca", "BlackTech", "Cicada", "MuddyWater" ]

/-- `MALWARE_FAMILIES`. -/
def MALWARE_FAMILIES : List String :=
  [ "Emotet", "TrickBot", "QakBot", "Qbot", "IcedID", "BazarLoader",
    "Cobalt Strike", "Metasploit", "Mimikatz", "BloodHound",
    "Ryuk", "Maze", "REvil", "Sodinokibi", "WannaCry", "NotPetya",
    "Agent Tesla", "FormBook", "Remcos", "AsyncRAT", "NjRAT",
    "RedLine", "Raccoon", "Vidar", "Lumma", "StealC",
    "BlackMatter", "DarkSide", "LockBit", "BlackCat", "Hive",
    "SmokeLoader", "Amadey", "SystemBC", "Bumblebee", "PikaBot",
    "Raspberry Robin", "SocGholish", "FakeUpdates", "Gootloader",
    "XWorm", "PlugX", "ShadowPad", "Gh0st RAT", "China Chopper",
    "Sliver", "Brute Ratel", "Havoc", "Nighthawk", "Mythic",
    "SUNBURST", "TEARDROP", "Raindrop", "NOBELIUM" ]

/-- `extract_threats`: case-insensitive substring match against the two
static lists.  Python builds `all_threats` as `list(set(malware +
actors))`, whose iteration order is unspecified; the embedding fixes
first-occurrence order (`dedupCollect id` with no filter), which the
claims — all about membership and distinctness — do not depend on. -/
def extract_threats (text : String) : List String × List String × List String :=
  let tl := strLower text
  let malware_found := MALWARE_FAMILIES.filter (fun m => strIn (strLower m) tl)
  let actors_found := THREAT_ACTORS.filter (fun a => strIn (strLower a) tl)
  (dedupCollect id (fun _ => true) (malware_found ++ actors_found) [],
   malware_found, actors_found)

/-- `TTP_KEYWORDS` (dict in insertion order). -/
def TTP_KEYWORDS : List (String × List String) :=
  [ ("phishing", ["phishing", "spear-phishing", "spearphishing", "credential harvesting",
                  "social engineering", "malicious email", "phish", "bec",
                  "business email compromise"]),
    ("ransomware", ["ransomware", "ransom", "encrypt", "decryptor", "double extortion",
                    "data leak site", "extortion", "triple extortion"]),
    ("credential_theft", ["credential", "password", "stealer", "infostealer", "keylogger",
                          "mimikatz", "dump", "lsass", "ntds", "credential stuffing"]),
    ("lateral_movement", ["lateral movement", "psexec", "wmi", "rdp", "smb", "pass the hash",
                          "pass the ticket", "pivoting", "bloodhound"]),
    ("c2", ["command and control", "c2", "c&c", "beacon", "callback", "implant",
            "cobalt strike"]),
    ("persistence", ["persistence", "scheduled task", "registry", "startup", "service",
                     "backdoor", "webshell", "rootkit"]),
    ("exploitation", ["exploit", "vulnerability", "zero-day", "0day", "rce",
                      "remote code execution", "buffer overflow", "injection", "cve-"]),
    ("data_exfiltration", ["exfiltration", "data theft", "data leak", "exfil", "staging",
                           "data breach"]),
    ("initial_access", ["initial access", "drive-by", "watering hole", "supply chain",
                        "compromised", "trojanized", "malvertising"]),
    ("defense_evasion", ["evasion", "obfuscation", "packing", "anti-analysis", "sandbox",
                         "disable", "bypass", "living off the land", "lolbin"]),
    ("ai_attack", ["prompt injection", "jailbreak", "model poisoning", "adversarial",
                   "llm attack", "ai attack", "model extraction", "membership inference",
                   "data poisoning", "backdoor attack", "trojan model"]),
    ("ai_abuse", ["deepfake", "synthetic media", "ai-generated", "voice cloning",
                  "face swap", "ai fraud", "chatgpt", "gpt-4", "claude", "llm",
                  "generative ai", "ai-powered malware", "ai phishing"]),
    ("ai_supply_chain", ["model supply chain", "hugging face", "pytorch", "tensorflow",
                         "model hub", "ai pipeline", "mlops", "model registry"]) ]

/-- `PRODUCTS` (dict in insertion order). -/
def PRODUCTS : List (String × List String) :=
  [ ("aws", ["aws", "amazon web services", "s3 bucket", "ec2", "lambda", "cloudfront"]),
    ("azure", ["azure", "microsoft azure", "azure ad", "entra", "office 365", "o365",
               "m365"]),
    ("gcp", ["google cloud", "gcp", "bigquery", "cloud run"]),
    ("crowdstrike", ["crowdstrike", "falcon"]),
    ("sentinelone", ["sentinelone", "sentinel one"]),
    ("palo_alto", ["palo alto", "pan-os", "cortex", "prisma"]),
    ("fortinet", ["fortinet", "fortigate", "fortios"]),
    ("cisco", ["cisco", "meraki", "umbrella", "firepower"]),
    ("microsoft", ["microsoft", "windows", "exchange", "sharepoint", "teams", "outlook"]),
    ("vmware", ["vmware", "esxi", "vcenter", "horizon"]),
    ("citrix", ["citrix", "netscaler", "xenapp"]),
    ("oracle", ["oracle", "weblogic", "e-business"]),
    ("sap", ["sap", "s4hana", "netweaver"]),
    ("salesforce", ["salesforce", "sfdc"]),
    ("ivanti", ["ivanti", "pulse secure", "mobileiron"]),
    ("f5", ["f5", "big-ip", "nginx"]),
    ("juniper", ["juniper", "junos"]),
    ("sophos", ["sophos"]),
    ("openai", ["openai", "chatgpt", "gpt-4", "gpt-3", "dall-e"]),
    ("anthropic", ["anthropic", "claude"]),
    ("google_ai", ["gemini", "bard", "palm", "vertex ai"]),
    ("huggingface", ["hugging face", "huggingface", "transformers"]) ]

/-- `GEOGRAPHY` (dict in insertion order). -/
def GEOGRAPHY : List (String × List String) :=
  [ ("russia", ["russia", "russian", "moscow", "kremlin", "fsb", "gru", "svr"]),
    ("china", ["china", "chinese", "beijing", "prc", "pla", "mss", "apt1", "apt10",
               "apt41"]),
    ("north_korea", ["north korea", "dprk", "pyongyang", "lazarus", "kimsuky", "apt38"]),
    ("iran", ["iran", "iranian", "tehran", "irgc", "apt33", "apt34", "apt35",
              "charming kitten", "muddywater"]),
    ("usa", ["united states", "usa", "us-cert", "cisa", "fbi", "nsa"]),
    ("uk", ["united kingdom", "uk", "ncsc", "gchq", "britain", "british"]),
    ("eu", ["european union", "eu", "europe", "enisa", "europol"]),
    ("israel", ["israel", "israeli", "mossad", "unit 8200"]),
    ("ukraine", ["ukraine", "ukrainian", "kyiv"]),
    ("india", ["india", "indian", "cert-in"]),
    ("australia", ["australia", "australian", "acsc"]),
    ("japan", ["japan", "japanese", "jpcert"]),
    ("south_korea", ["south korea", "korean", "krcert"]) ]

/-- `SECTORS` (dict in insertion order). -/
def SECTORS : List (String × List String) :=
  [ ("financial", ["bank", "banking", "financial", "finance", "fintech", "payment",
                   "swift", "crypto", "cryptocurrency", "defi"]),
    ("healthcare", ["healthcare", "hospital", "medical", "health", "hipaa", "pharma",
                    "pharmaceutical"]),
    ("government", ["government", "federal", "state", "municipal", "public sector",
                    "defense", "military", "dod"]),
    ("energy", ["energy", "oil", "gas", "utility", "power grid", "scada", "ics", "ot",
                "industrial control"]),
    ("technology", ["technology", "tech", "software", "saas", "cloud", "it services",
                    "msp"]),
    ("education", ["education", "university", "school", "academic", "research"]),
    ("retail", ["retail", "e-commerce", "ecommerce", "pos", "point of sale", "merchant"]),
    ("manufacturing", ["manufacturing", "industrial", "factory", "supply chain",
                       "logistics"]),
    ("telecom", ["telecom", "telecommunications", "carrier", "5g", "mobile network"]),
    ("transportation", ["transportation", "aviation", "airline", "maritime", "shipping",
                        "rail"]),
    ("media", ["media", "entertainment", "news", "broadcast", "streaming"]),
    ("legal", ["legal", "law firm", "attorney"]),
    ("critical_infrastructure", ["critical infrastructure", "water", "dam", "nuclear",
                                 "pipeline"]) ]

/-- Shared shape of `extract_ttp_tags` / `extract_products` /
`extract_geography` / `extract_sectors`: a category label is emitted
once when any of its keywords occurs in the lower-cased text (the inner
Python loop `break`s at the first hit). -/
def categoryTags (table : List (String × List String)) (text : String) : List String :=
  let tl := strLower text
  (table.filter (fun p => p.2.any (fun kw => strIn kw tl))).map (·.1)

/-- `extract_ttp_tags`. -/
def extract_ttp_tags (text : String) : List String := categoryTags TTP_KEYWORDS text

/-- `extract_products`. -/
def extract_products (text : String) : List String := categoryTags PRODUCTS text

/-- `extract_geography`. -/
def extract_geography (text : String) : List String := categoryTags GEOGRAPHY text

/-- `extract_sectors`. -/
def extract_sectors (text : String) : List String := categoryTags SECTORS text

/-- `ExtractedEntities` dataclass. -/
structure ExtractedEntities where
  cves : List String := []
  ips : List String := []
  domains : List String := []
  urls : List String := []
  hashes : List HashRec := []
  threats : List String := []
  malware : List String := []
  actors : List String := []
  tags : List String := []
  products : List String := []
  geography : List String := []
  sectors : List String := []
  deriving Repr, DecidableEq

/-- `extract_all`. -/
def extract_all (text : String) : ExtractedEntities :=
  let th := extract_threats text
  { cves := extract_cves text
    ips := extract_ips text
    domains := extract_domains text
    urls := extract_urls text
    hashes := extract_hashes text
    threats := th.1
    malware := th.2.1
    actors := th.2.2
    tags := extract_ttp_tags text
    products := extract_products text
    geography := extract_geography text
    sectors := extract_sectors text }

end IntelMesh

namespace IntelMesh

/-! ## `backend/store.py` -/

/-- A stored document (`items` entries are Python dicts; each field
models `item.get(key)`, `none` standing for an absent key).  `content`
and `description` stand for the remaining free-form payload. -/
structure Doc where
  id : Option String := none
  url : Option String := none
  title : Option String := none
  source : Option String := none
  date : Option String := none
  added_at : Option String := none
  content : Option String := none
  description : Option String := none
  extracted : Option ExtractedEntities := none
  deriving Repr, DecidableEq

/-- Python truthiness of `item.get(key)` for a string-valued key:
false for an absent key (`None`) and for the empty string. -/
def truthyStr : Option String → Bool
  | none => false
  | some s => !(s == "")

/-- `item.get('extracted', {})`. -/
def extractedOf (i : Doc) : ExtractedEntities := i.extracted.getD {}

/-- The duplicate scan of `add_item`: the first existing document with
the same non-empty URL, or the same (title, source) pair. -/
def dupPred (item : Doc) (existing : Doc) : Bool :=
  (truthyStr item.url && existing.url == item.url) ||
  (item.title == existing.title && item.source == existing.source)

/-- `if 'id' not in item: item['id'] = str(uuid.uuid4())[:8]`. -/
def withFreshId (fresh : String) (item : Doc) : Doc :=
  match item.id with
  | none => { item with id := some fresh }
  | some _ => item

/-- `if 'added_at' not in item: item['added_at'] = ...isoformat()`. -/
def withAddedAt (now : String) (item : Doc) : Doc :=
  match item.added_at with
  | none => { item with added_at := some now }
  | some _ => item

/-- `ThreatIntelStore.add_item`.  `fresh` stands for the generated
`uuid4` prefix and `now` for the ingestion timestamp, both environment
effects supplied by the caller.  Returns the item id and the updated
item list.  (The `_id_index` dict, used only by `get_item`, and the
in-place mutation of the caller's dict are not modelled; the mutation
only fills `id`/`added_at`, which the duplicate scan never reads.) -/
def add_item (fresh now : String) (items : List Doc) (item : Doc) : String × List Doc :=
  let item := withAddedAt now (withFreshId fresh item)
  match items.find? (dupPred item) with
  | some existing => (existing.id.getD "", items)
  | none => (item.id.getD "", items ++ [item])

/-- The aggregate statistics record.  Only the fields involved in the
claims are carried; the `top_*`, `*_counts`, `all_*` and `sources`
entries of the Python dict are derived data no claim mentions. -/
structure Stats where
  total_items : Nat
  articles : Nat
  pdfs : Nat
  total_cves : Nat
  total_iocs : Nat
  total_threats : Nat
  ips_count : Nat
  domains_count : Nat
  hashes_count : Nat
  urls_count : Nat
  deriving Repr, DecidableEq

/-- `set.update(xs)`: insert every element. -/
def setUpdate (s : Finset String) (xs : List String) : Finset String :=
  xs.foldl (fun acc v => insert v acc) s

/-- `ThreatIntelStore.get_stats`: one pass over the documents building
the six `all_*` sets, then the counts. -/
def get_stats (items : List Doc) : Stats :=
  let all_cves := items.foldl (fun s i => setUpdate s (extractedOf i).cves) ∅
  let all_ips := items.foldl (fun s i => setUpdate s (extractedOf i).ips) ∅
  let all_domains := items.foldl (fun s i => setUpdate s (extractedOf i).domains) ∅
  let all_urls := items.foldl (fun s i => setUpdate s (extractedOf i).urls) ∅
  let all_hashes := items.foldl
    (fun s i => setUpdate s ((extractedOf i).hashes.map (·.value))) ∅
  let all_threats := items.foldl (fun s i => setUpdate s (extractedOf i).threats) ∅
  { total_items := items.length
    articles := (items.filter (fun i =>
      i.source == some "bleepingcomputer" || i.source == some "gbhackers")).length
    pdfs := (items.filter (fun i => i.source == some "pdf")).length
    total_cves := all_cves.card
    total_iocs := all_ips.card + all_domains.card + all_hashes.card + all_urls.card
    total_threats := all_threats.card
    ips_count := all_ips.card
    domains_count := all_domains.card
    hashes_count := all_hashes.card
    urls_count := all_urls.card }

/-- A feed IOC as stored in `store.feed_iocs` (the `to_dict` image of a
`ThreatFeedItem`); only the fields `search_feeds` reads are carried. -/
structure FeedIoc where
  id : String := ""
  ioc_type : String := ""
  ioc_value : String := ""
  threat_type : String := ""
  malware_family : Option String := none
  tags : List String := []
  deriving Repr, DecidableEq

/-- A feed CVE as stored in `store.feed_cves`; only the fields
`search_feeds` reads are carried. -/
structure FeedCve where
  cve_id : String := ""
  vendor : String := ""
  product : String := ""
  vulnerability_name : String := ""
  date_added : String := ""
  known_ransomware : Bool := false
  deriving Repr, DecidableEq

/-- Python `str(tags)` for a list of strings: `['a', 'b']`. -/
def pyReprStrList (l : List String) : String :=
  let q : String := ⟨[Char.ofNat 39]⟩
  "[" ++ String.intercalate ", " (l.map (fun s => q ++ s ++ q)) ++ "]"

/-- The IOC predicate of `search_feeds`. -/
def iocQueryHit (ql : String) (item : FeedIoc) : Bool :=
  strIn ql (strLower item.ioc_value) ||
  strIn ql (strLower (item.malware_family.getD "")) ||
  strIn ql (strLower (pyReprStrList item.tags))

/-- The CVE predicate of `search_feeds`. -/
def cveQueryHit (ql : String) (item : FeedCve) : Bool :=
  strIn ql (strLower item.cve_id) ||
  strIn ql (strLower item.vulnerability_name) ||
  strIn ql (strLower item.vendor) ||
  strIn ql (strLower item.product)

/-- The inner loop of `search_feeds` over one source's items: append
each hit, and `break` (out of this loop only) once the accumulated list
reaches `limit`. -/
def searchAccum (p : α → Bool) (limit : Nat) : List α → List α → List α
  | [], acc => acc
  | i :: is, acc =>
    if p i then
      if limit ≤ (acc ++ [i]).length then acc ++ [i]
      else searchAccum p limit is (acc ++ [i])
    else searchAccum p limit is acc

/-- `search_feeds` results (`{"iocs": ..., "cves": ...}`). -/
structure SearchResults where
  iocs : List FeedIoc
  cves : List FeedCve
  deriving Repr, DecidableEq

/-- The feed-side store state: `feed_iocs` / `feed_cves` are dicts keyed
by source name, iterated in insertion order. -/
structure FeedStore where
  feed_iocs : List (String × List FeedIoc) := []
  feed_cves : List (String × List FeedCve) := []
  deriving Repr, DecidableEq

/-- `ThreatIntelStore.search_feeds`. -/
def search_feeds (store : FeedStore) (query : String) (limit : Nat) : SearchResults :=
  let ql := strLower query
  { iocs := store.feed_iocs.foldl
      (fun acc src => searchAccum (iocQueryHit ql) limit src.2 acc) []
    cves := store.feed_cves.foldl
      (fun acc src => searchAccum (cveQueryHit ql) limit src.2 acc) [] }

/-! ## `backend/threat_feeds.py` — the MalwareBazaar adapter -/

/-- `fieldnames` of the MalwareBazaar CSV reader. -/
def MB_FIELDNAMES : List String :=
  [ "first_seen_utc", "sha256_hash", "md5_hash", "sha1_hash", "reporter",
    "file_name", "file_type_guess", "mime_type", "signature", "clamav",
    "vtpercent", "imphash", "ssdeep", "tlsh" ]

/-- `row.get(name, "")` for a positional CSV row read with the fixed
`fieldnames`. -/
def rowGet (row : List String) (name : String) : String :=
  (((MB_FIELDNAMES.findIdx? (· == name)).bind (fun i => row.get? i)).getD "")

/-- `.strip().strip('"')`. -/
def clean2 (s : String) : String := ⟨stripQuoteChars (stripWsChars s.data)⟩

/-- `.strip().strip('"').strip()`. -/
def clean3 (s : String) : String := ⟨stripWsChars (stripQuoteChars (stripWsChars s.data))⟩

/-- A canonical feed indicator (`ThreatFeedItem`); `raw_data`, dropped
by `to_dict`, is not modelled. -/
structure ThreatFeedItem where
  id : String
  ioc_type : String
  ioc_value : String
  threat_type : String
  malware_family : Option String := none
  confidence : Option Int := none
  first_seen : Option String := none
  last_seen : Option String := none
  source : String := ""
  tags : List String := []
  reference : Option String := none
  deriving Repr, DecidableEq

/-- The row loop of `fetch_malwarebazaar`.  The input is the sequence of
CSV records after comment-line stripping and `csv.DictReader` field
splitting (network fetch and the stdlib CSV reader are the excluded I/O
boundary).  A row is skipped unless its cleaned `sha256_hash` field is
non-empty and exactly 64 characters long. -/
def mbRows (limit : Nat) : List (List String) → Nat → List ThreatFeedItem
  | [], _ => []
  | row :: rows, count =>
    if limit ≤ count then []
    else
      let sha256 := clean3 (rowGet row "sha256_hash")
      if sha256 == "" || !(sha256.length == 64) then mbRows limit rows count
      else
        let signature := clean3 (rowGet row "signature")
        let file_type := clean3 (rowGet row "file_type_guess")
        let tags :=
          (if !(signature == "") && !(signature == "n/a") then [signature] else []) ++
          (if !(file_type == "") && !(file_type == "n/a") then [file_type] else [])
        { id := ⟨sha256.data.take 12⟩
          ioc_type := "hash"
          ioc_value := sha256
          threat_type := "malware"
          malware_family :=
            if !(signature == "") && !(signature == "n/a") then some signature else none
          first_seen := some (clean2 (rowGet row "first_seen_utc"))
          source := "malwarebazaar"
          tags := tags
          reference := some ("https://bazaar.abuse.ch/sample/" ++ sha256 ++ "/")
        } :: mbRows limit rows (count + 1)

/-- `fetch_malwarebazaar` (row-processing core, default `limit = 200`). -/
def fetch_malwarebazaar (limit : Nat) (rows : List (List String)) : List ThreatFeedItem :=
  mbRows limit rows 0

/-! ## `backend/query_parser.py` — `filter_items` -/

/-- `get_time_filter_date` over an integer timestamp model of aware
datetimes (`now` in seconds); `datetime.min` is the smallest model
value used below. -/
def get_time_filter_date (now : Int) (time_range : String) : Int :=
  if time_range == "last_24h" then now - 86400
  else if time_range == "7d" then now - 7 * 86400
  else if time_range == "30d" then now - 30 * 86400
  else -62135596800

/-- The per-item keep decision of the time-range filter stage of
`filter_items`.  The `datetime.fromisoformat` library call is abstracted
as `parseDate`; `none` models every raising path (an unparseable string,
or a parsed naive datetime whose comparison with the aware cutoff
raises), and the surrounding `try/except` then keeps the item. -/
def timeKeep (parseDate : String → Option Int) (cutoff : Int) (item : Doc) : Bool :=
  match item.date with
  | none => true
  | some s =>
    if s == "" then true
    else
      match parseDate ⟨replaceChars ['Z'] ['+', '0', '0', ':', '0', '0'] s.data⟩ with
      | none => true
      | some t => cutoff ≤ t

/-- The time-range stage of `filter_items`. -/
def timeRangeStage (parseDate : String → Option Int) (cutoff : Int)
    (items : List Doc) : List Doc :=
  items.filter (timeKeep parseDate cutoff)

/-- The keyword haystack of `filter_items`. -/
def keywordText (i : Doc) : String :=
  strLower (String.intercalate " "
    [ i.title.getD "", i.content.getD "", i.description.getD "",
      String.intercalate " " (extractedOf i).threats,
      String.intercalate " " (extractedOf i).tags ])

/-- `filter_items`: AND-chain of source equality, time-range cutoff,
exact CVE membership, and keyword containment. -/
def filter_items (parseDate : String → Option Int) (now : Int)
    (items : List Doc) (parsed : ParsedQuery) : List Doc :=
  let results := items
  let results :=
    match parsed.source with
    | none => results
    | some src =>
      if src == "" then results
      else results.filter (fun i => strLower (i.source.getD "") == strLower src)
  let results :=
    match parsed.time_range with
    | none => results
    | some tr =>
      if tr == "" then results
      else timeRangeStage parseDate (get_time_filter_date now tr) results
  let results :=
    if truthyStr parsed.cve_id then
      let cveUpper := strUpper (parsed.cve_id.getD "")
      results.filter (fun i => ((extractedOf i).cves.map strUpper).contains cveUpper)
    else results
  let results :=
    if parsed.keywords.isEmpty then results
    else results.filter (fun i =>
      parsed.keywords.any (fun kw => strIn (strLower kw) (keywordText i)))
  results

end IntelMesh

namespace IntelMesh

/-! ## Concrete sample inputs used by counterexamples and witnesses -/

/-- A stored document with a URL distinct from `docB`'s but the same
(title, source) pair as `docD2` below. -/
def docA : Doc := { id := some "a", title := some "T", source := some "S", url := some "u1" }

/-- A stored document holding the URL `u2`. -/
def docB : Doc := { id := some "b", title := some "T2", source := some "S2", url := some "u2" }

/-- A document with URL `u2` and a fresh (title, source) pair. -/
def docD : Doc := { url := some "u2", title := some "X", source := some "Y" }

/-- A document with the same URL `u2` but `docA`'s (title, source). -/
def docD2 : Doc := { url := some "u2", title := some "T", source := some "S" }

/-- A stored document without a URL. -/
def docE : Doc := { id := some "e", title := some "T", source := some "S" }

/-- A document whose (title, source) matches `docE` but which carries a URL. -/
def docF : Doc := { url := some "u", title := some "T", source := some "S" }

/-- A document with `docF`'s URL and a fresh (title, source) pair. -/
def docG : Doc := { url := some "u", title := some "X", source := some "Y" }

/-- A matching feed IOC ("a" occurs in its value). -/
def feedIocSample : FeedIoc := { ioc_value := "abc" }

/-- A feed store with the same matching IOC under two sources. -/
def feedStoreSample : FeedStore :=
  { feed_iocs := [("s1", [feedIocSample]), ("s2", [feedIocSample])] }

/-- A MalwareBazaar CSV row whose `sha256_hash` field is 64 characters
long but not hexadecimal. -/
def mbRowNonHex : List String :=
  ["", ⟨List.replicate 64 'z'⟩, "", "", "", "", "", "", "", "", "", "", "", ""]

/-- A MalwareBazaar CSV row whose `sha256_hash` field has only 30
characters. -/
def mbRowShort : List String :=
  ["", ⟨List.replicate 30 'a'⟩, "", "", "", "", "", "", "", "", "", "", "", ""]

/-- A well-formed MalwareBazaar CSV row (64 hex characters). -/
def mbRowGood : List String :=
  ["", ⟨List.replicate 64 'a'⟩, "", "", "", "", "", "", "", "", "", "", "", ""]

/-- The indicator record `fetch_malwarebazaar` emits for `mbRowGood`. -/
def mbGoodItem : ThreatFeedItem :=
  { id := ⟨List.replicate 12 'a'⟩
    ioc_type := "hash"
    ioc_value := ⟨List.replicate 64 'a'⟩
    threat_type := "malware"
    first_seen := some ""
    source := "malwarebazaar"
    reference := some ("https://bazaar.abuse.ch/sample/" ++ (⟨List.replicate 64 'a'⟩ : String) ++ "/") }

/-- A text containing one version-like and three real IPv4 addresses. -/
def ipSampleText : String := "1.2.3.4 185.220.101.5 10.0.0.1 192.168.1.1"

/-- A text consisting of one 64-hex-character token (upper-case hex)
followed by a space. -/
def hashSampleText : String := ⟨List.replicate 64 'A' ++ [' ']⟩

end IntelMesh

namespace IntelMesh

/-! ## Helper lemmas -/

/-- Filling in `id`/`added_at` does not change the fields the duplicate
scan reads. -/
theorem norm_preserves (f n : String) (d : Doc) :
    (withAddedAt n (withFreshId f d)).url = d.url ∧
    (withAddedAt n (withFreshId f d)).title = d.title ∧
    (withAddedAt n (withFreshId f d)).source = d.source := by
  unfold withFreshId withAddedAt
  cases h1 : d.id <;> cases h2 : d.added_at <;> simp [h1, h2]

/-- Hence the duplicate scan is blind to the id/timestamp fill-in. -/
theorem dupPred_norm (f n : String) (d : Doc) :
    dupPred (withAddedAt n (withFreshId f d)) = dupPred d := by
  funext e
  obtain ⟨h1, h2, h3⟩ := norm_preserves f n d
  simp [dupPred, h1, h2, h3]

end IntelMesh

namespace IntelMesh

/-! ## C1 -/

/-- **C1 (theorem at the failing input).**  The spec's first worked
example holds: `parse_query "CVEs from last 7 days"` has
`query_type = "cve"` and `time_range = "7d"`.  The second does not:
on `"show IoCs for CVE-2025-1234"` the code extracts the CVE id but
classifies `query_type` as `"cve"`, not the documented `"ioc"`, because
the `cve` indicator `\bcves?\b` is tried first and matches the `cve`
inside `CVE-2025-1234` (the hyphen provides a word boundary). -/
theorem C1_parse_query_examples :
    (parse_query "CVEs from last 7 days").query_type = some "cve" ∧
    (parse_query "CVEs from last 7 days").time_range = some "7d" ∧
    (parse_query "show IoCs for CVE-2025-1234").cve_id = some "CVE-2025-1234" ∧
    (parse_query "show IoCs for CVE-2025-1234").query_type = some "cve" ∧
    ¬ (parse_query "show IoCs for CVE-2025-1234").query_type = some "ioc" := by
  refine ⟨?_, ?_, ?_, ?_, ?_⟩ <;> decide

/-! ## C2 -/

/-- **C2, counterexample.**  With documents `docA`/`docB` stored,
adding `docD` (URL `u2`) dedups against `docB` and returns `"b"`, but a
second document `docD2` with the same non-empty URL returns `"a"`
(it dedups against `docA` by (title, source) first) — not the same
identifier.  Moreover with `docE` stored, adding `docF` (URL `u`,
deduped by (title, source)) then `docG` (same URL `u`) inserts `docG`:
the stored count does increase. -/
theorem C2_counterexample :
    truthyStr docD.url = true ∧ docD2.url = docD.url ∧
    (add_item "f1" "n1" [docA, docB] docD).1 = "b" ∧
    (add_item "f2" "n2" (add_item "f1" "n1" [docA, docB] docD).2 docD2).1 = "a" ∧
    truthyStr docF.url = true ∧ docG.url = docF.url ∧
    (add_item "f3" "n3" [docE] docF).2.length = 1 ∧
    (add_item "f4" "n4" (add_item "f3" "n3" [docE] docF).2 docG).2.length = 2 := by
  decide

/-- **C2 (amended).**  Calling `add_item` twice with the *same*
document `d` carrying a non-empty URL returns the same identifier both
times, and the stored-item count after the second call equals the count
after the first.  (For a *different* second document that merely shares
the URL, neither is guaranteed — see the counterexample.) -/
theorem C2_add_item_same_doc (items : List Doc) (d : Doc) (f1 n1 f2 n2 : String)
    (h : truthyStr d.url = true) :
    (add_item f2 n2 (add_item f1 n1 items d).2 d).1 = (add_item f1 n1 items d).1 ∧
    (add_item f2 n2 (add_item f1 n1 items d).2 d).2.length =
      (add_item f1 n1 items d).2.length := by
  simp only [add_item, dupPred_norm]
  cases h2 : items.find? (dupPred d) with
  | some e => simp [h2]
  | none =>
    have hd : dupPred d (withAddedAt n1 (withFreshId f1 d)) = true := by
      obtain ⟨h1, _, _⟩ := norm_preserves f1 n1 d
      simp [dupPred, h1, h]
    simp [h2, List.find?_append, List.find?, hd]

/-- **C2 witness.** -/
theorem C2_witness :
    truthyStr docD.url = true ∧
    ((add_item "f2" "n2" (add_item "f1" "n1" [docA, docB] docD).2 docD).1 =
       (add_item "f1" "n1" [docA, docB] docD).1 ∧
     (add_item "f2" "n2" (add_item "f1" "n1" [docA, docB] docD).2 docD).2.length =
       (add_item "f1" "n1" [docA, docB] docD).2.length) :=
  ⟨by decide, C2_add_item_same_doc [docA, docB] docD "f1" "n1" "f2" "n2" (by decide)⟩

/-! ## C10 -/

/-- **C10 (confirmed).**  The (title, source) duplicate check does not
require the fields to be present or non-empty: for any two documents
`A`, `B` without a URL whose `title`s agree and whose `source`s agree
(including both absent, i.e. `none`), `add_item A` followed by
`add_item B` returns for `B` the identifier returned for `A` and leaves
the store exactly as it was after adding `A`, whatever the rest of the
two documents' contents. -/
theorem C10_title_source_dedup (items : List Doc) (A B : Doc) (f1 n1 f2 n2 : String)
    (hA : A.url = none) (hB : B.url = none)
    (ht : B.title = A.title) (hs : B.source = A.source) :
    (add_item f2 n2 (add_item f1 n1 items A).2 B).1 = (add_item f1 n1 items A).1 ∧
    (add_item f2 n2 (add_item f1 n1 items A).2 B).2 = (add_item f1 n1 items A).2 := by
  have hpred : dupPred B = dupPred A := by
    funext e
    simp [dupPred, hA, hB, ht, hs, truthyStr]
  simp only [add_item, dupPred_norm, hpred]
  cases h2 : items.find? (dupPred A) with
  | some e => simp [h2]
  | none =>
    have hd : dupPred A (withAddedAt n1 (withFreshId f1 A)) = true := by
      obtain ⟨_, h1, h3⟩ := norm_preserves f1 n1 A
      simp [dupPred, h1, h3]
    simp [h2, List.find?_append, List.find?, hd]

/-- **C10 witness** (both documents omit `title`/`source` entirely and
differ in their remaining content). -/
theorem C10_witness :
    (add_item "f2" "n2"
        (add_item "f1" "n1" [] ({ content := some "one" } : Doc)).2
        ({ content := some "two" } : Doc)).1 =
      (add_item "f1" "n1" [] ({ content := some "one" } : Doc)).1 ∧
    (add_item "f2" "n2"
        (add_item "f1" "n1" [] ({ content := some "one" } : Doc)).2
        ({ content := some "two" } : Doc)).2 =
      (add_item "f1" "n1" [] ({ content := some "one" } : Doc)).2 :=
  C10_title_source_dedup [] { content := some "one" } { content := some "two" }
    "f1" "n1" "f2" "n2" rfl rfl rfl rfl

end IntelMesh

namespace IntelMesh

/-! ## C3 -/

/-- **C3, counterexample.**  With the same matching IOC under two feed
sources and `limit = 1`, `search_feeds` returns an `iocs` list of
length 2: the `break` ends only the inner (per-source) loop, so the
next source appends again. -/
theorem C3_counterexample :
    (search_feeds feedStoreSample "a" 1).iocs.length = 2 ∧
    ¬ (search_feeds feedStoreSample "a" 1).iocs.length ≤ 1 := by
  exact ⟨by decide, by decide⟩

/-- The inner per-source loop adds matches until the accumulated list
reaches `limit`; if it already starts at or beyond `limit` it can still
add one element before the `break` fires. -/
theorem searchAccum_length_le (p : α → Bool) (limit : Nat) :
    ∀ (is acc : List α), (searchAccum p limit is acc).length ≤ max limit (acc.length + 1)
  | [], acc => by
    simp only [searchAccum]
    omega
  | i :: is, acc => by
    simp only [searchAccum]
    by_cases hp : p i = true
    · rw [if_pos hp]
      by_cases hl : limit ≤ (acc ++ [i]).length
      · rw [if_pos hl]
        simp only [List.length_append, List.length_cons, List.length_nil]
        omega
      · rw [if_neg hl]
        have := searchAccum_length_le p limit is (acc ++ [i])
        simp only [List.length_append, List.length_cons, List.length_nil] at this hl
        omega
    · rw [if_neg hp]
      have := searchAccum_length_le p limit is acc
      omega

/-- Folding the inner loop across sources grows the result by at most
one element per source once the limit has been reached. -/
theorem searchFold_length_le (p : α → Bool) (limit : Nat) :
    ∀ (srcs : List (β × List α)) (acc : List α),
      (srcs.foldl (fun acc src => searchAccum p limit src.2 acc) acc).length ≤
        max limit acc.length + srcs.length
  | [], acc => by simp
  | s :: ss, acc => by
    simp only [List.foldl_cons, List.length_cons]
    have h1 := searchAccum_length_le p limit s.2 acc
    have h2 := searchFold_length_le p limit ss (searchAccum p limit s.2 acc)
    omega

/-- **C3 (amended).**  For `limit ≥ 1`, each result list of
`search_feeds` is only approximately limited: it holds at most
`limit + (number of sources − 1)` entries — at most `limit` when there
is a single source — but not at most `limit` in general (see the
counterexample). -/
theorem C3_search_feeds_approx_limit (store : FeedStore) (query : String) (limit : Nat)
    (h : 1 ≤ limit) :
    (search_feeds store query limit).iocs.length ≤
      limit + (store.feed_iocs.length - 1) ∧
    (search_feeds store query limit).cves.length ≤
      limit + (store.feed_cves.length - 1) := by
  constructor
  · show (store.feed_iocs.foldl
      (fun acc src => searchAccum (iocQueryHit (strLower query)) limit src.2 acc) []).length ≤ _
    cases hs : store.feed_iocs with
    | nil => simp
    | cons s ss =>
      simp only [List.foldl_cons, List.length_cons]
      have h1 := searchAccum_length_le (iocQueryHit (strLower query)) limit s.2 []
      have h2 := searchFold_length_le (iocQueryHit (strLower query)) limit ss
        (searchAccum (iocQueryHit (strLower query)) limit s.2 [])
      simp only [List.length_nil] at h1
      omega
  · show (store.feed_cves.foldl
      (fun acc src => searchAccum (cveQueryHit (strLower query)) limit src.2 acc) []).length ≤ _
    cases hs : store.feed_cves with
    | nil => simp
    | cons s ss =>
      simp only [List.foldl_cons, List.length_cons]
      have h1 := searchAccum_length_le (cveQueryHit (strLower query)) limit s.2 []
      have h2 := searchFold_length_le (cveQueryHit (strLower query)) limit ss
        (searchAccum (cveQueryHit (strLower query)) limit s.2 [])
      simp only [List.length_nil] at h1
      omega

/-- **C3 witness.** -/
theorem C3_witness :
    (search_feeds feedStoreSample "a" 1).iocs.length ≤ 1 + (feedStoreSample.feed_iocs.length - 1) ∧
    (search_feeds feedStoreSample "a" 1).cves.length ≤ 1 + (feedStoreSample.feed_cves.length - 1) :=
  C3_search_feeds_approx_limit feedStoreSample "a" 1 (by decide)

/-! ## C4 -/

/-- **C4, counterexample.**  A row whose `sha256_hash` field is 64
characters of `z` — 64 characters long but *not* hexadecimal — is
emitted by the MalwareBazaar adapter, so "only if ... 64 *hex*
characters" fails; a 30-character value is indeed dropped. -/
theorem C4_counterexample :
    (fetch_malwarebazaar 200 [mbRowNonHex]).map (fun i => i.ioc_value) =
      [(⟨List.replicate 64 'z'⟩ : String)] ∧
    (List.replicate 64 'z').all isHexChar = false ∧
    fetch_malwarebazaar 200 [mbRowShort] = [] := by
  refine ⟨by decide, by decide, by decide⟩

/-- Every emitted item's hash passed the (pure length) check. -/
theorem mbRows_hash_length (limit : Nat) :
    ∀ (rows : List (List String)) (count : Nat) (item : ThreatFeedItem),
      item ∈ mbRows limit rows count →
      item.ioc_value.length = 64 ∧ item.ioc_type = "hash"
  | [], count, item => by simp [mbRows]
  | row :: rows, count, item => by
    intro hmem
    by_cases hl : limit ≤ count
    · simp [mbRows, hl] at hmem
    · by_cases hsha : (clean3 (rowGet row "sha256_hash") == "" ||
        !(clean3 (rowGet row "sha256_hash")).length == 64) = true
      · simp only [mbRows, if_neg hl, hsha, if_true] at hmem
        exact mbRows_hash_length limit rows count item hmem
      · simp only [mbRows, if_neg hl, hsha, Bool.false_eq_true, if_false,
          List.mem_cons] at hmem
        cases hmem with
        | inl he =>
          subst he
          simp only [Bool.or_eq_true, not_or, Bool.not_eq_true] at hsha
          have h64 := hsha.2
          simp only [Bool.not_eq_false', beq_iff_eq] at h64
          exact ⟨h64, rfl⟩
        | inr hm => exact mbRows_hash_length limit rows (count + 1) item hm

/-- **C4 (amended).**  The MalwareBazaar adapter emits an indicator for
a CSV row only if the row's cleaned `sha256_hash` field is non-empty
and exactly 64 characters long (shorter values — e.g. 30 characters —
are dropped); hexadecimal validity is *not* checked, so a 64-character
non-hex value is emitted (see the counterexample). -/
theorem C4_malwarebazaar_hash_length (limit : Nat) (rows : List (List String))
    (item : ThreatFeedItem) (h : item ∈ fetch_malwarebazaar limit rows) :
    item.ioc_value.length = 64 ∧ item.ioc_type = "hash" :=
  mbRows_hash_length limit rows 0 item h

/-- **C4 witness.** -/
theorem C4_witness : mbGoodItem.ioc_value.length = 64 ∧ mbGoodItem.ioc_type = "hash" :=
  C4_malwarebazaar_hash_length 200 [mbRowGood] mbGoodItem (by decide)

/-! ## C9 -/

/-- **C9 (confirmed).**  In the time-range stage of `filter_items`, a
document whose `date` is missing (`none`), empty, or fails to parse
(the abstracted `datetime.fromisoformat` raises: `parseDate` returns
`none` on the `Z`-normalised string) is kept by the filter. -/
theorem C9_ambiguous_date_passes (parseDate : String → Option Int) (cutoff : Int)
    (items : List Doc) (d : Doc) (hmem : d ∈ items)
    (h : d.date = none ∨ d.date = some "" ∨
      (∃ s, d.date = some s ∧
        parseDate ⟨replaceChars ['Z'] ['+', '0', '0', ':', '0', '0'] s.data⟩ = none)) :
    d ∈ timeRangeStage parseDate cutoff items := by
  have hk : timeKeep parseDate cutoff d = true := by
    rcases h with h | h | ⟨s, hs, hp⟩
    · simp [timeKeep, h]
    · simp [timeKeep, h]
    · by_cases hs0 : s = "" <;> simp [timeKeep, hs, hs0, hp]
  exact List.mem_filter.mpr ⟨hmem, hk⟩

/-- **C9 witness** (an unparseable non-empty date). -/
theorem C9_witness :
    ({ date := some "not-a-date" } : Doc) ∈
      timeRangeStage (fun _ => none) 0 [{ date := some "not-a-date" }] :=
  C9_ambiguous_date_passes (fun _ => none) 0 _ _ (List.mem_singleton.mpr rfl)
    (Or.inr (Or.inr ⟨"not-a-date", rfl, rfl⟩))

end IntelMesh

namespace IntelMesh

/-! ## C7 -/

/-- Python `set.update` is union with the list's element set. -/
theorem setUpdate_eq (xs : List String) :
    ∀ (s : Finset String), setUpdate s xs = s ∪ xs.toFinset := by
  induction xs with
  | nil => intro s; simp [setUpdate]
  | cons x xs ih =>
    intro s
    simp only [setUpdate, List.foldl_cons] at *
    rw [ih (insert x s)]
    simp [Finset.insert_union, Finset.union_insert]

/-- The per-document `set.update` loop of `get_stats` computes the
union, across documents, of the per-document sets. -/
theorem foldl_setUpdate (f : Doc → List String) :
    ∀ (items : List Doc) (s : Finset String),
      items.foldl (fun s i => setUpdate s (f i)) s =
        s ∪ items.foldr (fun i acc => (f i).toFinset ∪ acc) ∅ := by
  intro items
  induction items with
  | nil => intro s; simp
  | cons i is ih =>
    intro s
    simp only [List.foldl_cons, List.foldr_cons]
    rw [ih, setUpdate_eq, Finset.union_assoc]

/-- **C7 (confirmed).**  `get_stats().total_iocs` is the sum of the
cardinalities of the four sets obtained by unioning, across all stored
documents, the extracted `ips`, `domains`, hash values, and `urls`
(set union across documents, not a sum of per-document list lengths). -/
theorem C7_total_iocs_is_union_cards (items : List Doc) :
    (get_stats items).total_iocs =
      (items.foldr (fun i acc => (extractedOf i).ips.toFinset ∪ acc) ∅).card +
      (items.foldr (fun i acc => (extractedOf i).domains.toFinset ∪ acc) ∅).card +
      (items.foldr (fun i acc => ((extractedOf i).hashes.map (·.value)).toFinset ∪ acc) ∅).card +
      (items.foldr (fun i acc => (extractedOf i).urls.toFinset ∪ acc) ∅).card := by
  simp only [get_stats]
  rw [foldl_setUpdate (fun i => (extractedOf i).ips) items ∅,
      foldl_setUpdate (fun i => (extractedOf i).domains) items ∅,
      foldl_setUpdate (fun i => (extractedOf i).hashes.map (·.value)) items ∅,
      foldl_setUpdate (fun i => (extractedOf i).urls) items ∅]
  simp [Finset.empty_union]

end IntelMesh

namespace IntelMesh

/-! ## C6 -/

/-- Membership in a `dedupCollect` run: an element is collected iff it
was already in the accumulator, or it is the normalisation of some
input and passes the filter. -/
theorem dedupCollect_mem (norm : String → String) (keep : String → Bool) :
    ∀ (xs res : List String) (v : String),
      v ∈ dedupCollect norm keep xs res ↔
        v ∈ res ∨ (v ∈ xs.map norm ∧ keep v = true)
  | [], res, v => by simp [dedupCollect]
  | x :: xs, res, v => by
    simp only [dedupCollect]
    by_cases hc : (!res.contains (norm x) && keep (norm x)) = true
    · rw [if_pos hc]
      rw [dedupCollect_mem norm keep xs (res ++ [norm x]) v]
      simp only [List.mem_append, List.mem_cons, List.not_mem_nil, or_false,
        List.map_cons]
      constructor
      · rintro ((h | h) | ⟨h1, h2⟩)
        · exact Or.inl h
        · subst h
          have hc' := hc
          simp only [Bool.and_eq_true, Bool.not_eq_true'] at hc'
          exact Or.inr ⟨Or.inl rfl, hc'.2⟩
        · exact Or.inr ⟨Or.inr h1, h2⟩
      · rintro (h | ⟨h1 | h1, h2⟩)
        · exact Or.inl (Or.inl h)
        · subst h1
          exact Or.inl (Or.inr rfl)
        · exact Or.inr ⟨h1, h2⟩
    · rw [if_neg hc]
      rw [dedupCollect_mem norm keep xs res v]
      simp only [List.map_cons, List.mem_cons]
      constructor
      · rintro (h | ⟨h1, h2⟩)
        · exact Or.inl h
        · exact Or.inr ⟨Or.inr h1, h2⟩
      · rintro (h | ⟨h1 | h1, h2⟩)
        · exact Or.inl h
        · subst h1
          simp only [Bool.and_eq_true, Bool.not_eq_true'] at hc
          rcases Decidable.not_and_iff_or_not.mp hc with hm | hk
        -- `contains` must have been true, so the value is already in `res`
          · simp only [Bool.not_eq_false] at hm
            exact Or.inl (List.mem_of_elem_eq_true hm)
          · exact absurd h2 hk
        · exact Or.inr ⟨h1, h2⟩

/-- **C6 (confirmed).**  Among the addresses matched by `IP_PATTERN`, an
address is dropped from `extract_ips`'s result exactly when all four of
its octets are numerically below 10. -/
theorem C6_ip_filter_iff (text : String) (ip : String)
    (hmem : ip ∈ (reFindall IP_RE text.data).map (fun m => (⟨m⟩ : String))) :
    (ip ∈ extract_ips text ↔ allOctetsSmall ip = false) := by
  unfold extract_ips
  rw [dedupCollect_mem id (fun ip => !allOctetsSmall ip)]
  simp only [List.not_mem_nil, false_or, List.map_id, Bool.not_eq_true']
  exact and_iff_right hmem

/-- **C6 witness**: on a sample text, `"1.2.3.4"` is excluded while
`"185.220.101.5"`, `"10.0.0.1"` and `"192.168.1.1"` are included. -/
theorem C6_witness :
    (("1.2.3.4" : String) ∈ extract_ips ipSampleText ↔
       allOctetsSmall "1.2.3.4" = false) ∧
    extract_ips ipSampleText = ["185.220.101.5", "10.0.0.1", "192.168.1.1"] :=
  ⟨C6_ip_filter_iff ipSampleText "1.2.3.4" (by decide), by decide⟩

end IntelMesh

namespace IntelMesh

/-! ## Hash-scanner lemmas (shared by C5 and C8) -/

/-- A hexadecimal digit is a word character. -/
theorem hex_isWordChar (c : Char) (h : isHexChar c = true) : isWordChar c = true := by
  simp only [isHexChar, Bool.or_eq_true, Bool.and_eq_true, decide_eq_true_eq] at h
  simp only [isWordChar, Char.isAlphanum, Char.isAlpha, Char.isLower, Char.isUpper,
    Bool.or_eq_true, Bool.and_eq_true, decide_eq_true_eq, beq_iff_eq]
  rcases h with (h | ⟨h1, h2⟩) | ⟨h1, h2⟩
  · tauto
  · have : c ≤ 'z' := le_trans h2 (by decide)
    tauto
  · have : c ≤ 'Z' := le_trans h2 (by decide)
    tauto

/-- Unpack a successful `hexRunHere` check. -/
theorem hexRunHere_spec (n : Nat) (prev : Option Char) (t : List Char)
    (h : hexRunHere n prev t = true) :
    leftBoundOk prev = true ∧ (t.take n).length = n ∧
    (t.take n).all isHexChar = true ∧ rightBoundOk (t.drop n) = true := by
  simp only [hexRunHere, Bool.and_eq_true, beq_iff_eq] at h
  tauto

/-- Assemble a successful `hexRunHere` check. -/
theorem hexRunHere_intro (n : Nat) (prev : Option Char) (t : List Char)
    (h1 : leftBoundOk prev = true) (h2 : (t.take n).length = n)
    (h3 : (t.take n).all isHexChar = true) (h4 : rightBoundOk (t.drop n) = true) :
    hexRunHere n prev t = true := by
  simp only [hexRunHere, Bool.and_eq_true, beq_iff_eq]
  tauto

/-- Every match the scanner reports has length exactly `n`. -/
theorem hexFindAux_length (n : Nat) :
    ∀ (steps : Nat) (prev : Option Char) (t : List Char) (m : List Char),
      m ∈ hexFindAux n steps prev t → m.length = n
  | 0, prev, t, m => by simp [hexFindAux]
  | steps + 1, prev, [], m => by simp [hexFindAux]
  | steps + 1, prev, c :: cs, m => by
    intro hm
    simp only [hexFindAux] at hm
    by_cases hc : (decide (0 < n) && hexRunHere n prev (c :: cs)) = true
    · rw [if_pos hc] at hm
      rcases List.mem_cons.mp hm with he | ht
      · subst he
        have hc2 : hexRunHere n prev (c :: cs) = true := by
          simp only [Bool.and_eq_true] at hc
          exact hc.2
        exact (hexRunHere_spec n prev (c :: cs) hc2).2.1
      · exact hexFindAux_length n steps _ _ m ht
    · rw [if_neg hc] at hm
      exact hexFindAux_length n steps _ _ m hm

/-- Completeness of the scanner: every bounded `n`-character hex run in
the subject is reported. -/
theorem hexFindAux_complete (n : Nat) (run post : List Char) (hn : 0 < n)
    (hlen : run.length = n) (hhex : run.all isHexChar = true)
    (hpost : rightBoundOk post = true) :
    ∀ (steps : Nat) (pre : List Char) (prev : Option Char),
      (pre ++ run ++ post).length < steps →
      (pre = [] → leftBoundOk prev = true) →
      (∀ c, pre.getLast? = some c → isWordChar c = false) →
      run ∈ hexFindAux n steps prev (pre ++ run ++ post)
  | 0, pre, prev => fun hlt _ _ => absurd hlt (by omega)
  | steps + 1, [], prev => fun hlt hpre hlast => by
    rcases run with _ | ⟨r, rs⟩
    · simp at hlen
      omega
    · have htake : ((r :: rs) ++ post).take n = r :: rs := by
        rw [← hlen]; exact List.take_left _ post
      have hdrop : ((r :: rs) ++ post).drop n = post := by
        rw [← hlen]; exact List.drop_left _ post
      have hrh : hexRunHere n prev ((r :: rs) ++ post) = true := by
        refine hexRunHere_intro n prev _ (hpre rfl) ?_ ?_ ?_
        · rw [htake]; exact hlen
        · rw [htake]; exact hhex
        · rw [hdrop]; exact hpost
      simp only [List.nil_append, List.cons_append] at htake hrh ⊢
      simp only [hexFindAux]
      rw [if_pos (by simp [hrh, hn])]
      rw [htake]
      exact List.mem_cons_self _ _
  | steps + 1, p :: pre2, prev => fun hlt hpre hlast => by
    have hsubj : ((p :: pre2) ++ run) ++ post = p :: ((pre2 ++ run) ++ post) := by simp
    rw [hsubj]
    simp only [hexFindAux]
    by_cases hC : (decide (0 < n) && hexRunHere n prev (p :: ((pre2 ++ run) ++ post))) = true
    · rw [if_pos hC]
      have hCr : hexRunHere n prev (p :: ((pre2 ++ run) ++ post)) = true := by
        simp only [Bool.and_eq_true] at hC
        exact hC.2
      have hspec := hexRunHere_spec n prev _ hCr
      -- the match cannot reach into `run`: the last character of the
      -- non-empty prefix is a non-word character while every matched
      -- character is hexadecimal
      have hlast0 : isWordChar ((p :: pre2).getLast (by simp)) = false :=
        hlast _ (List.getLast?_eq_getLast _ _)
      have hltpre : n < (p :: pre2).length := by
        by_contra hge
        push_neg at hge
        have htk : (p :: ((pre2 ++ run) ++ post)).take n =
            (p :: pre2) ++ ((run ++ post).take (n - (p :: pre2).length)) := by
          have hform : p :: ((pre2 ++ run) ++ post) = (p :: pre2) ++ (run ++ post) := by
            simp
          rw [hform]
          have hn' : n = (p :: pre2).length + (n - (p :: pre2).length) := by omega
          rw [hn', List.take_append]
          have harith : n - (p :: pre2).length =
              (p :: pre2).length + (n - (p :: pre2).length) - (p :: pre2).length := by
            omega
          rw [← harith]
        have hallpre : (p :: pre2).all isHexChar = true := by
          have hall := hspec.2.2.1
          rw [htk, List.all_append, Bool.and_eq_true] at hall
          exact hall.1
        have hmem := List.getLast_mem (l := p :: pre2) (by simp)
        have hhx := List.all_eq_true.mp hallpre _ hmem
        rw [hex_isWordChar _ hhx] at hlast0
        exact Bool.true_eq_false.mp hlast0
      refine List.mem_cons_of_mem _ ?_
      have hle1 : n ≤ (p :: pre2).length := le_of_lt hltpre
      have hdropeq : (p :: ((pre2 ++ run) ++ post)).drop n =
          (((p :: pre2).drop n ++ run) ++ post) := by
        have hform : p :: ((pre2 ++ run) ++ post) = (((p :: pre2) ++ run) ++ post) := by
          simp
        rw [hform,
            List.drop_append_of_le_length
              (by simp only [List.length_append]; omega),
            List.drop_append_of_le_length hle1]
      rw [hdropeq]
      have hne : (p :: pre2).drop n ≠ [] := by
        intro h
        have hlen0 := congrArg List.length h
        simp only [List.length_drop, List.length_nil, List.length_cons] at hlen0
        simp only [List.length_cons] at hltpre
        omega
      have hrec := hexFindAux_complete n run post hn hlen hhex hpost steps
        ((p :: pre2).drop n) (some (((p :: ((pre2 ++ run) ++ post)).take n).getLastD p))
        (by
          simp only [List.length_append, List.length_drop, List.length_cons] at hlt ⊢
          omega)
        (fun h => absurd h hne)
        (by
          intro c hc
          apply hlast
          rw [show (p :: pre2) = (p :: pre2).take n ++ (p :: pre2).drop n from
              (List.take_append_drop n (p :: pre2)).symm,
            List.getLast?_append_of_ne_nil _ hne]
          exact hc)
      exact hrec
    · rw [if_neg hC]
      have heq : (pre2 ++ run) ++ post = pre2 ++ run ++ post := rfl
      rw [heq]
      refine hexFindAux_complete n run post hn hlen hhex hpost steps pre2 (some p) ?_ ?_ ?_
      · have hlt' : ((p :: pre2) ++ run ++ post).length < steps + 1 := hlt
        simp only [List.length_append, List.length_cons] at hlt' ⊢
        omega
      · intro h
        subst h
        have := hlast p rfl
        simp [leftBoundOk, this]
      · intro c hc
        apply hlast
        have hne2 : pre2 ≠ [] := by
          intro h; subst h; simp at hc
        rw [show p :: pre2 = [p] ++ pre2 by rfl, List.getLast?_append_of_ne_nil _ hne2]
        exact hc

/-- `hexFindall` reports every bounded hex run of length `n`. -/
theorem hexFindall_complete (n : Nat) (t pre run post : List Char) (hn : 0 < n)
    (hsplit : t = pre ++ run ++ post) (hlen : run.length = n)
    (hhex : run.all isHexChar = true) (hleft : leftBoundOk pre.getLast? = true)
    (hright : rightBoundOk post = true) :
    run ∈ hexFindall n t := by
  subst hsplit
  unfold hexFindall
  refine hexFindAux_complete n run post hn hlen hhex hright _ pre none (by omega) ?_ ?_
  · intro _; rfl
  · intro c hc
    rw [hc] at hleft
    simpa [leftBoundOk] using hleft

end IntelMesh

namespace IntelMesh

/-- Entries already collected survive later `addHashes` passes. -/
theorem addHashes_mono (ty : String) :
    ∀ (ms : List (List Char)) (st : List HashRec × List String) (e : HashRec),
      e ∈ st.1 → e ∈ (addHashes ty ms st).1
  | [], st, e => fun h => by
    obtain ⟨res, seen⟩ := st
    simpa [addHashes] using h
  | m :: ms, st, e => fun h => by
    obtain ⟨res, seen⟩ := st
    simp only [addHashes]
    by_cases hc : seen.contains (⟨lowerChars m⟩ : String) = true
    · rw [if_pos hc]
      exact addHashes_mono ty ms (res, seen) e h
    · rw [if_neg hc]
      exact addHashes_mono ty ms (res ++ [⟨ty, ⟨lowerChars m⟩⟩], seen ++ [⟨lowerChars m⟩]) e
        (List.mem_append_left _ h)

/-- The `seen` set always holds exactly the values of the result list. -/
theorem addHashes_seen_eq (ty : String) :
    ∀ (ms : List (List Char)) (st : List HashRec × List String),
      st.2 = st.1.map (fun h => h.value) →
      (addHashes ty ms st).2 = (addHashes ty ms st).1.map (fun h => h.value)
  | [], st => fun h => by
    obtain ⟨res, seen⟩ := st
    simpa [addHashes] using h
  | m :: ms, st => fun h => by
    obtain ⟨res, seen⟩ := st
    simp only [addHashes]
    by_cases hc : seen.contains (⟨lowerChars m⟩ : String) = true
    · rw [if_pos hc]
      exact addHashes_seen_eq ty ms (res, seen) h
    · rw [if_neg hc]
      refine addHashes_seen_eq ty ms _ ?_
      simp only at h ⊢
      simp [h]

/-- The `seen` set (and hence the value list) stays duplicate-free. -/
theorem addHashes_seen_nodup (ty : String) :
    ∀ (ms : List (List Char)) (st : List HashRec × List String),
      st.2.Nodup → (addHashes ty ms st).2.Nodup
  | [], st => fun h => by
    obtain ⟨res, seen⟩ := st
    simpa [addHashes] using h
  | m :: ms, st => fun h => by
    obtain ⟨res, seen⟩ := st
    simp only [addHashes]
    by_cases hc : seen.contains (⟨lowerChars m⟩ : String) = true
    · rw [if_pos hc]
      exact addHashes_seen_nodup ty ms (res, seen) h
    · rw [if_neg hc]
      refine addHashes_seen_nodup ty ms _ ?_
      simp only at h ⊢
      have hnm : (⟨lowerChars m⟩ : String) ∉ seen := by
        intro hmem
        exact hc (List.elem_eq_true_of_mem hmem)
      simp [List.nodup_append, h, hnm]

/-- Where an entry of an `addHashes` pass can come from. -/
theorem addHashes_entries (ty : String) :
    ∀ (ms : List (List Char)) (st : List HashRec × List String) (e : HashRec),
      e ∈ (addHashes ty ms st).1 →
      e ∈ st.1 ∨ (e.type = ty ∧ ∃ m, m ∈ ms ∧ e.value = ⟨lowerChars m⟩)
  | [], st, e => fun h => by
    obtain ⟨res, seen⟩ := st
    simp only [addHashes] at h
    exact Or.inl h
  | m :: ms, st, e => fun h => by
    obtain ⟨res, seen⟩ := st
    simp only [addHashes] at h
    by_cases hc : seen.contains (⟨lowerChars m⟩ : String) = true
    · rw [if_pos hc] at h
      rcases addHashes_entries ty ms (res, seen) e h with h1 | ⟨h1, m', hm', hv'⟩
      · exact Or.inl h1
      · exact Or.inr ⟨h1, m', List.mem_cons_of_mem _ hm', hv'⟩
    · rw [if_neg hc] at h
      rcases addHashes_entries ty ms
          (res ++ [⟨ty, ⟨lowerChars m⟩⟩], seen ++ [⟨lowerChars m⟩]) e h with h1 | ⟨h1, m', hm', hv'⟩
      · rcases List.mem_append.mp h1 with h2 | h2
        · exact Or.inl h2
        · rcases List.mem_singleton.mp h2 with rfl
          exact Or.inr ⟨rfl, m, List.mem_cons_self _ _, rfl⟩
      · exact Or.inr ⟨h1, m', List.mem_cons_of_mem _ hm', hv'⟩

/-- Every input run's (lower-cased) value ends up among the collected
values. -/
theorem addHashes_complete (ty : String) :
    ∀ (ms : List (List Char)) (st : List HashRec × List String) (m : List Char),
      m ∈ ms → st.2 = st.1.map (fun h => h.value) →
      (⟨lowerChars m⟩ : String) ∈ (addHashes ty ms st).1.map (fun h => h.value)
  | [], st, m => fun hm _ => absurd hm (List.not_mem_nil m)
  | m' :: ms, st, m => fun hm hinv => by
    obtain ⟨res, seen⟩ := st
    simp only [addHashes]
    by_cases hc : seen.contains (⟨lowerChars m'⟩ : String) = true
    · rw [if_pos hc]
      rcases List.mem_cons.mp hm with he | ht
      · subst he
        have hv : (⟨lowerChars m⟩ : String) ∈ res.map (fun h => h.value) := by
          simp only at hinv
          rw [← hinv]
          exact List.mem_of_elem_eq_true hc
        rcases List.mem_map.mp hv with ⟨e, he1, he2⟩
        exact he2 ▸ List.mem_map_of_mem _ (addHashes_mono ty ms (res, seen) e he1)
      · exact addHashes_complete ty ms (res, seen) m ht hinv
    · rw [if_neg hc]
      rcases List.mem_cons.mp hm with he | ht
      · subst he
        have hin : (⟨ty, ⟨lowerChars m⟩⟩ : HashRec) ∈
            (addHashes ty ms (res ++ [⟨ty, ⟨lowerChars m⟩⟩], seen ++ [⟨lowerChars m⟩])).1 :=
          addHashes_mono ty ms _ _
            (List.mem_append_right _ (List.mem_singleton.mpr rfl))
        exact List.mem_map_of_mem _ hin
      · refine addHashes_complete ty ms _ m ht ?_
        simp only at hinv ⊢
        simp [hinv]

/-- The value lists of `extract_hashes` carry no duplicates (shared by
C5 and C8). -/
theorem extract_hashes_values_nodup (text : String) :
    ((extract_hashes text).map (fun h => h.value)).Nodup := by
  unfold extract_hashes
  have k1e := addHashes_seen_eq "sha256" (hexFindall 64 text.data) ([], []) rfl
  have k1n := addHashes_seen_nodup "sha256" (hexFindall 64 text.data) ([], []) List.nodup_nil
  have k2e := addHashes_seen_eq "sha1" (hexFindall 40 text.data) _ k1e
  have k2n := addHashes_seen_nodup "sha1" (hexFindall 40 text.data) _ k1n
  have k3e := addHashes_seen_eq "md5" (hexFindall 32 text.data) _ k2e
  have k3n := addHashes_seen_nodup "md5" (hexFindall 32 text.data) _ k2n
  rw [← k3e]
  exact k3n

/-- Lower-casing preserves length (as a `String`). -/
theorem lowerChars_mk_length (m : List Char) :
    (⟨lowerChars m⟩ : String).length = m.length := by
  simp [String.length, lowerChars]

/-- Every entry of `extract_hashes` is one of the three shapes: type
`sha256` with a 64-character value, `sha1` with 40, or `md5` with 32. -/
theorem extract_hashes_entry_shape (text : String) (e : HashRec)
    (h : e ∈ extract_hashes text) :
    (e.type = "sha256" ∧ e.value.length = 64) ∨
    (e.type = "sha1" ∧ e.value.length = 40) ∨
    (e.type = "md5" ∧ e.value.length = 32) := by
  unfold extract_hashes at h
  rcases addHashes_entries "md5" _ _ e h with h1 | ⟨hty, m, hm, hv⟩
  · rcases addHashes_entries "sha1" _ _ e h1 with h2 | ⟨hty, m, hm, hv⟩
    · rcases addHashes_entries "sha256" _ _ e h2 with h3 | ⟨hty, m, hm, hv⟩
      · simp at h3
      · refine Or.inl ⟨hty, ?_⟩
        rw [hv, lowerChars_mk_length, hexFindAux_length 64 _ _ _ m hm]
    · refine Or.inr (Or.inl ⟨hty, ?_⟩)
      rw [hv, lowerChars_mk_length, hexFindAux_length 40 _ _ _ m hm]
  · refine Or.inr (Or.inr ⟨hty, ?_⟩)
    rw [hv, lowerChars_mk_length, hexFindAux_length 32 _ _ _ m hm]

end IntelMesh

namespace IntelMesh

/-! ## C5 -/

/-- **C5 (confirmed).**  `extract_hashes` classifies
longest-pattern-first: (1) no value is ever reported twice (in
particular a value captured as a longer type is never re-emitted as a
shorter one); (2) every entry's type matches its value's length — a
64-character value is only ever typed `sha256`, never `sha1` (40) or
`md5` (32); (3) every 64-character hex token with word boundaries on
both sides is reported (lower-cased) with type `sha256`. -/
theorem C5_extract_hashes_longest_first (text : String) :
    ((extract_hashes text).map (fun h => h.value)).Nodup ∧
    (∀ e, e ∈ extract_hashes text →
      (e.value.length = 64 → e.type = "sha256") ∧
      (e.type = "sha256" → e.value.length = 64) ∧
      (e.type = "sha1" → e.value.length = 40) ∧
      (e.type = "md5" → e.value.length = 32)) ∧
    (∀ pre run post, text.data = pre ++ run ++ post → run.length = 64 →
      run.all isHexChar = true → leftBoundOk pre.getLast? = true →
      rightBoundOk post = true →
      (⟨"sha256", ⟨lowerChars run⟩⟩ : HashRec) ∈ extract_hashes text) := by
  refine ⟨extract_hashes_values_nodup text, ?_, ?_⟩
  · intro e he
    rcases extract_hashes_entry_shape text e he with ⟨h1, h2⟩ | ⟨h1, h2⟩ | ⟨h1, h2⟩
    · exact ⟨fun _ => h1, fun _ => h2,
        fun ht => absurd (h1.symm.trans ht) (by decide),
        fun ht => absurd (h1.symm.trans ht) (by decide)⟩
    · exact ⟨fun hl => absurd (h2.symm.trans hl) (by decide),
        fun ht => absurd (h1.symm.trans ht) (by decide),
        fun _ => h2,
        fun ht => absurd (h1.symm.trans ht) (by decide)⟩
    · exact ⟨fun hl => absurd (h2.symm.trans hl) (by decide),
        fun ht => absurd (h1.symm.trans ht) (by decide),
        fun ht => absurd (h1.symm.trans ht) (by decide),
        fun _ => h2⟩
  · intro pre run post hsplit hlen hhex hleft hright
    have hrun : run ∈ hexFindall 64 text.data :=
      hexFindall_complete 64 text.data pre run post (by omega) hsplit hlen hhex hleft hright
    have hval := addHashes_complete "sha256" (hexFindall 64 text.data) ([], []) run hrun rfl
    rcases List.mem_map.mp hval with ⟨e, he, hev⟩
    have hshape := addHashes_entries "sha256" (hexFindall 64 text.data) ([], []) e he
    have hty : e.type = "sha256" := by
      rcases hshape with h | ⟨h, _⟩
      · simp at h
      · exact h
    have hee : e = ⟨"sha256", ⟨lowerChars run⟩⟩ := by
      obtain ⟨et, ev⟩ := e
      simp only at hty hev
      rw [hty, hev]
    unfold extract_hashes
    exact addHashes_mono "md5" _ _ _ (addHashes_mono "sha1" _ _ _ (hee ▸ he))

/-- **C5 witness**: the 64-character upper-case hex token in
`hashSampleText` is reported, lower-cased, as a `sha256` entry, and the
reported values are duplicate-free. -/
theorem C5_witness :
    (⟨"sha256", ⟨lowerChars (List.replicate 64 'A')⟩⟩ : HashRec) ∈
      extract_hashes hashSampleText ∧
    ((extract_hashes hashSampleText).map (fun h => h.value)).Nodup :=
  ⟨(C5_extract_hashes_longest_first hashSampleText).2.2 [] (List.replicate 64 'A') [' ']
      rfl (by decide) (by decide) (by decide) (by decide),
   (C5_extract_hashes_longest_first hashSampleText).1⟩

/-! ## C8 -/

/-- A `dedupCollect` run starting from a duplicate-free accumulator
stays duplicate-free. -/
theorem dedupCollect_nodup (norm : String → String) (keep : String → Bool) :
    ∀ (xs res : List String), res.Nodup → (dedupCollect norm keep xs res).Nodup
  | [], res => fun h => by simpa [dedupCollect] using h
  | x :: xs, res => fun h => by
    simp only [dedupCollect]
    by_cases hc : (!res.contains (norm x) && keep (norm x)) = true
    · rw [if_pos hc]
      refine dedupCollect_nodup norm keep xs (res ++ [norm x]) ?_
      have hm : norm x ∉ res := by
        intro hmem
        simp only [Bool.and_eq_true, Bool.not_eq_true'] at hc
        have hct : res.contains (norm x) = true := List.elem_eq_true_of_mem hmem
        rw [hct] at hc
        exact Bool.true_eq_false.mp hc.1
      simp [List.nodup_append, h, hm]
    · rw [if_neg hc]
      exact dedupCollect_nodup norm keep xs res h

/-- The category-keyed extractors emit a sublist of the category keys in
definition order. -/
theorem categoryTags_sublist (table : List (String × List String)) (text : String) :
    (categoryTags table text).Sublist (table.map Prod.fst) :=
  List.Sublist.map Prod.fst (List.filter_sublist table)

/-- **C8 (confirmed).**  Every list field of `extract_all`'s result is
duplicate-free, and each of `tags`, `products`, `geography`, `sectors`
is a sublist of its keyword table's (duplicate-free) key list, i.e.
each category label appears at most once, in category-definition
order. -/
theorem C8_extract_all_setlike (text : String) :
    (extract_all text).cves.Nodup ∧
    (extract_all text).ips.Nodup ∧
    (extract_all text).domains.Nodup ∧
    (extract_all text).urls.Nodup ∧
    ((extract_all text).hashes.map (fun h => h.value)).Nodup ∧
    (extract_all text).threats.Nodup ∧
    (extract_all text).malware.Nodup ∧
    (extract_all text).actors.Nodup ∧
    (extract_all text).tags.Nodup ∧
    (extract_all text).products.Nodup ∧
    (extract_all text).geography.Nodup ∧
    (extract_all text).sectors.Nodup ∧
    (extract_all text).tags.Sublist (TTP_KEYWORDS.map Prod.fst) ∧
    (extract_all text).products.Sublist (PRODUCTS.map Prod.fst) ∧
    (extract_all text).geography.Sublist (GEOGRAPHY.map Prod.fst) ∧
    (extract_all text).sectors.Sublist (SECTORS.map Prod.fst) := by
  refine ⟨?_, ?_, ?_, ?_, ?_, ?_, ?_, ?_, ?_, ?_, ?_, ?_, ?_, ?_, ?_, ?_⟩
  · exact dedupCollect_nodup _ _ _ [] List.nodup_nil
  · exact dedupCollect_nodup _ _ _ [] List.nodup_nil
  · exact dedupCollect_nodup _ _ _ [] List.nodup_nil
  · exact dedupCollect_nodup _ _ _ [] List.nodup_nil
  · exact extract_hashes_values_nodup text
  · exact dedupCollect_nodup _ _ _ [] List.nodup_nil
  · exact List.Nodup.filter _ (by decide : MALWARE_FAMILIES.Nodup)
  · exact List.Nodup.filter _ (by decide : THREAT_ACTORS.Nodup)
  · exact List.Nodup.sublist (categoryTags_sublist TTP_KEYWORDS text)
      (by decide : (TTP_KEYWORDS.map Prod.fst).Nodup)
  · exact List.Nodup.sublist (categoryTags_sublist PRODUCTS text)
      (by decide : (PRODUCTS.map Prod.fst).Nodup)
  · exact List.Nodup.sublist (categoryTags_sublist GEOGRAPHY text)
      (by decide : (GEOGRAPHY.map Prod.fst).Nodup)
  · exact List.Nodup.sublist (categoryTags_sublist SECTORS text)
      (by decide : (SECTORS.map Prod.fst).Nodup)
  · exact categoryTags_sublist TTP_KEYWORDS text
  · exact categoryTags_sublist PRODUCTS text
  · exact categoryTags_sublist GEOGRAPHY text
  · exact categoryTags_sublist SECTORS text

end IntelMesh
